import Mathlib

/-
Verification development for the shipment-KPI dashboard (src/index.tsx).

Modelling conventions:
- JavaScript strings are Lean String, optional record fields are Option;
  a missing field (undefined) is none.
- Date strings are modelled in the ISO YYYY-MM-DD form that the
  application itself stores (parseDateFromExcel emits toISOString
  prefixes); JS Date parsing of such a string yields UTC midnight and
  the getFullYear/getMonth accessors are modelled in UTC.
- JS number arithmetic on day counts and container counts is modelled
  with exact integer arithmetic (the quantities involved are small
  integers, exactly representable).
-/

namespace KPI

/-- Ceiling division on naturals, used to model Math.ceil of an exact
nonnegative quotient. -/
def natCeilDiv (a b : Nat) : Nat := (a + b - 1) / b

/-- Gregorian leap-year test. -/
def isLeap (y : Nat) : Bool := y % 4 = 0 && (y % 100 != 0 || y % 400 = 0)

/-- Number of days in a month (m is 1-based). -/
def daysInMonth (y m : Nat) : Nat :=
  if m = 2 then (if isLeap y then 29 else 28)
  else if m = 4 || m = 6 || m = 9 || m = 11 then 30
  else 31

/-- Number of leap years in the range 1..y. -/
def leapsBefore (y : Nat) : Nat := y / 4 - y / 100 + y / 400

/-- Cumulative day count before the given 1-based month, non-leap year. -/
def cumMonthDays (m : Nat) : Nat :=
  [0, 31, 59, 90, 120, 151, 181, 212, 243, 273, 304, 334].getD (m - 1) 0

/-- A parsed calendar date: year, 1-based month, 1-based day. -/
structure Ymd where
  year : Nat
  month : Nat
  day : Nat
deriving DecidableEq, Repr

/-- Days since the Unix epoch (1970-01-01) of a calendar date, the UTC
day index underlying the JS Date time value. -/
def epochDay (d : Ymd) : Int :=
  (365 * ((d.year : Int) - 1) + (leapsBefore (d.year - 1) : Int)
    + (cumMonthDays d.month : Int)
    + (if 2 < d.month ∧ isLeap d.year then 1 else 0)
    + (d.day : Int) - 1) - 719162

/-- Milliseconds since the Unix epoch of a calendar date at UTC
midnight, the JS getTime value of an ISO-parsed date string. -/
def msOfYmd (d : Ymd) : Int := epochDay d * 86400000

/-- True when the string is nonempty and all characters are digits. -/
def isDigits (s : String) : Bool := s.length != 0 && s.data.all (·.isDigit)

/-- Splitting of a character list at every separator, the list-level
model of String.prototype.split with a character-class pattern (and of
String.splitOn for a one-character separator). -/
def splitPredAux (p : Char → Bool) : List Char → List Char → List (List Char)
  | [], acc => [acc.reverse]
  | x :: xs, acc =>
    if p x then acc.reverse :: splitPredAux p xs []
    else splitPredAux p xs (x :: acc)

/-- String-level splitting at every character satisfying the
predicate. -/
def splitPred (p : Char → Bool) (s : String) : List String :=
  (splitPredAux p s.data []).map String.mk

/-- Numeric value of a digit-character list (base 10). -/
def natOfDigits (l : List Char) : Nat :=
  l.foldl (fun acc c => acc * 10 + (c.toNat - 48)) 0

/-- Numeric value of an all-digit string. -/
def natOfString (s : String) : Nat := natOfDigits s.data

/-- Parse of an ISO YYYY-MM-DD date string, the model of a successful
JS new Date(s) on the date strings this application stores; any other
shape is the Invalid Date outcome. -/
def parseISO (s : String) : Option Ymd :=
  match splitPred (· = '-') s with
  | [ys, ms, ds] =>
    if ys.length = 4 ∧ ms.length = 2 ∧ ds.length = 2
        ∧ isDigits ys ∧ isDigits ms ∧ isDigits ds then
      if 1 ≤ natOfString ys ∧ 1 ≤ natOfString ms ∧ natOfString ms ≤ 12
          ∧ 1 ≤ natOfString ds
          ∧ natOfString ds ≤ daysInMonth (natOfString ys) (natOfString ms) then
        some ⟨natOfString ys, natOfString ms, natOfString ds⟩
      else none
    else none
  | _ => none

/-- Model of the JS idiom: a falsy field (undefined or empty string)
yields no date, otherwise the string is parsed and an invalid parse
yields no date. -/
def jsDate (v : Option String) : Option Ymd :=
  match v with
  | none => none
  | some s => if s = "" then none else parseISO s

/-- Time value (ms) of a parseable date string. -/
def dateMs (s : String) : Option Int := (parseISO s).map msOfYmd

/-- calculateDaysBetween from src/index.tsx: null when either endpoint
is missing, empty or unparseable; otherwise the ceiling of the absolute
millisecond difference divided by the milliseconds in a day. -/
def calculateDaysBetween (start stop : Option String) : Option Nat :=
  match start, stop with
  | some s, some e =>
    if s = "" ∨ e = "" then none
    else
      match dateMs s, dateMs e with
      | some a, some b => some (natCeilDiv (b - a).natAbs 86400000)
      | _, _ => none
  | _, _ => none

/-- The shipment record, restricted to the fields read by the
aggregation pipeline under verification (the remaining fields of the
source interface are never read by the functions embedded here).
Option models optional (possibly undefined) fields; fcl is the
container count. -/
structure Shipment where
  typeOfCargo : Option String := none
  shipmentType : Option String := none
  fcl : Option Nat := none
  bondedWarehouse : Option String := none
  actualEta : Option String := none
  diRegistrationDate : Option String := none
  cargoPresenceDate : Option String := none
  greenChannelOrDeliveryAuthorizedDate : Option String := none
  firstTruckDelivery : Option String := none
  nfIssueDate : Option String := none
  di : Option String := none
  parametrization : Option String := none
  uniqueDi : Option String := none
  status : Option String := none
deriving DecidableEq, Repr

/-- The dashboard filter state: cargo types (empty list means no
constraint), year and month (none models the All setting; month is
0-based as in JS getMonth). -/
structure KpiFilters where
  cargo : List String := []
  year : Option Nat := none
  month : Option Nat := none
deriving DecidableEq, Repr

/-- The filter predicate shared by CargosInTransitDashboard,
OperationStatusDashboard (dateField = actualEta) and
PerformanceDashboard (dateField = diRegistrationDate): cargo-type
match, then a falsy or unparseable reference date rejects the record,
then year and month must match unless set to All. -/
def passesFilter (dateField : Shipment → Option String) (f : KpiFilters)
    (s : Shipment) : Bool :=
  let cargoMatch := f.cargo.isEmpty
    || (match s.typeOfCargo with
        | some t => f.cargo.contains t
        | none => false)
  match jsDate (dateField s) with
  | none => false
  | some d =>
    let yearMatch := match f.year with
      | none => true
      | some y => d.year == y
    let monthMatch := match f.month with
      | none => true
      | some m => d.month - 1 == m
    cargoMatch && yearMatch && monthMatch

/-- filteredShipments of the dashboards, as a filter over the shipment
sequence. -/
def filteredShipments (dateField : Shipment → Option String)
    (f : KpiFilters) (l : List Shipment) : List Shipment :=
  l.filter (passesFilter dateField f)

/-- JS toLowerCase restricted to the Basic Latin and Latin-1
repertoire: ASCII letters and the Latin-1 uppercase letters (except
the multiplication sign) map to their lowercase forms. -/
def jsLowerChar (c : Char) : Char :=
  if 'A' ≤ c ∧ c ≤ 'Z' then Char.ofNat (c.toNat + 32)
  else if 0xC0 ≤ c.toNat ∧ c.toNat ≤ 0xDE ∧ c.toNat ≠ 0xD7 then
    Char.ofNat (c.toNat + 32)
  else c

/-- Model of NFD normalization followed by deletion of combining
diacritical marks, on the Latin repertoire: a precomposed accented
Latin letter decomposes to its base letter plus a combining mark that
is then deleted, a bare combining mark is deleted, anything else is
kept. -/
def stripDiacritic (c : Char) : Option Char :=
  if 0x300 ≤ c.toNat ∧ c.toNat ≤ 0x36F then none
  else if c ∈ ['à', 'á', 'â', 'ã', 'ä', 'å'] then some 'a'
  else if c = 'ç' then some 'c'
  else if c ∈ ['è', 'é', 'ê', 'ë'] then some 'e'
  else if c ∈ ['ì', 'í', 'î', 'ï'] then some 'i'
  else if c = 'ñ' then some 'n'
  else if c ∈ ['ò', 'ó', 'ô', 'õ', 'ö'] then some 'o'
  else if c ∈ ['ù', 'ú', 'û', 'ü'] then some 'u'
  else if c = 'ý' ∨ c = 'ÿ' then some 'y'
  else if c ∈ ['À', 'Á', 'Â', 'Ã', 'Ä', 'Å'] then some 'A'
  else if c = 'Ç' then some 'C'
  else if c ∈ ['È', 'É', 'Ê', 'Ë'] then some 'E'
  else if c ∈ ['Ì', 'Í', 'Î', 'Ï'] then some 'I'
  else if c = 'Ñ' then some 'N'
  else if c ∈ ['Ò', 'Ó', 'Ô', 'Õ', 'Ö'] then some 'O'
  else if c ∈ ['Ù', 'Ú', 'Û', 'Ü'] then some 'U'
  else if c = 'Ý' then some 'Y'
  else some c

/-- The name.toLowerCase().normalize NFD diacritic-stripping pipeline
of normalizeTerminalName. -/
def jsNormalizeLower (s : String) : String :=
  String.mk ((s.data.map jsLowerChar).filterMap stripDiacritic)

/-- Scan for the pattern at every suffix of the character list. -/
def containsSubAux (pat : List Char) : List Char → Bool
  | [] => pat.isEmpty
  | x :: xs => pat.isPrefixOf (x :: xs) || containsSubAux pat xs

/-- Substring containment, the model of String.prototype.includes. -/
def containsSub (s pat : String) : Bool := containsSubAux pat.data s.data

/-- normalizeTerminalName from src/index.tsx: a falsy name yields N/A;
otherwise the lowercased, diacritic-stripped name is matched against
the known terminal substrings in order; an unmatched name passes
through unchanged. -/
def normalizeTerminalName (name : Option String) : String :=
  match name with
  | none => "N/A"
  | some n =>
    if n = "" then "N/A"
    else
      let lowerName := jsNormalizeLower n
      if containsSub lowerName "tecon" then "TECON"
      else if containsSub lowerName "teca" then "TECA"
      else if containsSub lowerName "clia" && containsSub lowerName "emporio" then
        "CLIA Empório"
      else if containsSub lowerName "intermaritima" then "Intermaritima"
      else if containsSub lowerName "tpc" then "TPC"
      else n

/-- The container-count expression of statusByContainersData and
containerVolumeByWarehouseData: for an FCL or FCL/LCL shipment the
fcl field with falsy values (undefined or 0) replaced by 1, otherwise
0. -/
def containerCount (s : Shipment) : Nat :=
  if s.shipmentType = some "FCL" ∨ s.shipmentType = some "FCL/LCL" then
    match s.fcl with
    | some n => if n = 0 then 1 else n
    | none => 1
  else 0

/-- One step of the status-grouping loops: a record with a status
among the pre-declared bucket keys adds its weight to that bucket, a
CARGO READY record adds its weight to the AT THE PORT bucket, any
other record is ignored. The weight is 1 for the by-BLs grouping and
containerCount for the by-containers groupings. -/
def statusStep (keys : List String) (w : Shipment → Nat)
    (g : String → Nat) (s : Shipment) : String → Nat :=
  match s.status with
  | none => g
  | some st =>
    if st ∈ keys then fun k => if k = st then g k + w s else g k
    else if st = "CARGO READY" then
      fun k => if k = "AT THE PORT" then g k + w s else g k
    else g

/-- Final per-bucket total of a status grouping over a shipment
sequence. -/
def statusGroupCount (keys : List String) (w : Shipment → Nat)
    (l : List Shipment) (k : String) : Nat :=
  (l.foldl (statusStep keys w) (fun _ => 0)) k

/-- Contribution of a single record to one bucket of a status
grouping. -/
def statusContrib (keys : List String) (w : Shipment → Nat)
    (s : Shipment) (k : String) : Nat :=
  match s.status with
  | none => 0
  | some st =>
    if st ∈ keys then (if k = st then w s else 0)
    else if st = "CARGO READY" then (if k = "AT THE PORT" then w s else 0)
    else 0

/-- Bucket keys of statusByBLsData and of the OperationStatusDashboard
statusByContainersData. -/
def opStatusKeys : List String :=
  ["IN TRANSIT", "AT THE PORT", "DI REGISTERED", "CARGO CLEARED"]

/-- Bucket keys of the five-bucket statusByContainersData variant
(src/unnamed/part_000). -/
def opStatusKeys5 : List String :=
  ["IN TRANSIT", "AT THE PORT", "DI REGISTERED", "CARGO CLEARED",
   "CARGO DELIVERED"]

/-- statusByBLsData: the ordered bucket labels paired with the number
of filtered records pushed into each bucket. -/
def statusByBLsData (l : List Shipment) : List (String × Nat) :=
  opStatusKeys.map (fun k => (k, statusGroupCount opStatusKeys (fun _ => 1) l k))

/-- Per-bucket container total of statusByContainersData,
parameterized by the bucket key list to cover both the four-bucket
(src/index.tsx) and five-bucket (src/unnamed/part_000) variants. -/
def statusByContainersCount (keys : List String) (l : List Shipment)
    (k : String) : Nat :=
  statusGroupCount keys containerCount l k

/-- A status counted by the by-BLs grouping: one of the four bucket
keys, or the CARGO READY legacy alias folded into AT THE PORT. -/
def recognizedBLStatus (s : Shipment) : Bool :=
  s.status = some "IN TRANSIT" || s.status = some "AT THE PORT"
    || s.status = some "DI REGISTERED" || s.status = some "CARGO CLEARED"
    || s.status = some "CARGO READY"

/-- Month labels of the six-month cargo-volume chart. -/
def monthLabels6 : List String :=
  ["Julho", "Agosto", "Setembro", "Outubro", "Novembro", "Dezembro"]

/-- One step of the cargoVolumeDataStack loop: a record with a
parseable actualEta in the second half of the year and a positive
container volume (fcl with falsy values replaced by 0, and only for
FCL or FCL/LCL modes) adds that volume under its month label and
normalized terminal. -/
def cargoVolStep (g : String → String → Nat) (s : Shipment) :
    String → String → Nat :=
  match jsDate s.actualEta with
  | none => g
  | some d =>
    let mi := d.month - 1
    if 6 ≤ mi then
      let mName := monthLabels6.getD (mi - 6) ""
      let term := normalizeTerminalName s.bondedWarehouse
      let cv := if s.shipmentType = some "FCL" ∨ s.shipmentType = some "FCL/LCL"
        then s.fcl.getD 0 else 0
      if 0 < cv then
        fun m t => if m = mName ∧ t = term then g m t + cv else g m t
      else g
    else g

/-- Per month label and terminal container volume of
cargoVolumeDataStack. -/
def cargoVolume (l : List Shipment) (m t : String) : Nat :=
  (l.foldl cargoVolStep (fun _ _ => 0)) m t

/-- Contribution of a single record to one (month, terminal) cell of
cargoVolumeDataStack. -/
def cargoVolContrib (s : Shipment) (m t : String) : Nat :=
  match jsDate s.actualEta with
  | none => 0
  | some d =>
    let mi := d.month - 1
    if 6 ≤ mi then
      let mName := monthLabels6.getD (mi - 6) ""
      let term := normalizeTerminalName s.bondedWarehouse
      let cv := if s.shipmentType = some "FCL" ∨ s.shipmentType = some "FCL/LCL"
        then s.fcl.getD 0 else 0
      if 0 < cv ∧ m = mName ∧ t = term then cv else 0
    else 0

/-- One step of the containerVolumeByWarehouseData loop: a record
whose normalized warehouse is not N/A adds its containerCount under
that warehouse. -/
def warehouseVolStep (g : String → Nat) (s : Shipment) : String → Nat :=
  let w := normalizeTerminalName s.bondedWarehouse
  if w = "N/A" then g
  else fun k => if k = w then g k + containerCount s else g k

/-- Per-warehouse container total of containerVolumeByWarehouseData. -/
def containerVolumeByWarehouse (l : List Shipment) (k : String) : Nat :=
  (l.foldl warehouseVolStep (fun _ => 0)) k

/-- Contribution of a single record to one warehouse total. -/
def warehouseContrib (s : Shipment) (k : String) : Nat :=
  let w := normalizeTerminalName s.bondedWarehouse
  if w = "N/A" then 0
  else if k = w then containerCount s else 0

/-- JS truthiness of an optional string: undefined and the empty
string are falsy. -/
def truthyStr (v : Option String) : Bool :=
  match v with
  | none => false
  | some s => s != ""

/-- The three parametrization channel keys. -/
def channelKeys : List String := ["Green", "Yellow", "Red"]

/-- Plain shipment count of one channel bucket in the
BrokerageKPIsPage diChannelData: every record whose truthy
parametrization equals a bucket key is pushed. -/
def diChannelValue (l : List Shipment) (c : String) : Nat :=
  if c ∈ channelKeys then
    (l.filter (fun s => s.parametrization = some c)).length
  else 0

/-- The DI identifiers a channel bucket collects in diChannelData: the
di of every record in the bucket with a truthy di. -/
def diChannelDIs (l : List Shipment) (c : String) : List String :=
  l.filterMap (fun s =>
    if s.parametrization = some c ∧ truthyStr s.di then s.di else none)

/-- Unique-DI count (the Set size, secondaryValue) of one channel
bucket in diChannelData. -/
def diChannelUnique (l : List Shipment) (c : String) : Nat :=
  if c ∈ channelKeys then (diChannelDIs l c).dedup.length else 0

/-- The DI identifiers one channel bucket collects in the
PerformanceDashboard diParamData: records with a truthy di and a
matching channel key. -/
def diParamDIs (l : List Shipment) (c : String) : List String :=
  l.filterMap (fun s =>
    if truthyStr s.di ∧ s.parametrization = some c then s.di else none)

/-- Unique-DI count (the Map size, the bucket value) of one channel
bucket of diParamData. -/
def diParamValue (l : List Shipment) (c : String) : Nat :=
  if c ∈ channelKeys then (diParamDIs l c).dedup.length else 0

/-- One step of the lineChartData month-bucketing loop for one of the
four duration metrics, given the start and stop date fields of that
metric: a record with a parseable diRegistrationDate and a non-null
day-difference pushes that difference into its registration month
bucket. -/
def perfStep (f1 f2 : Shipment → Option String) (g : Nat → List Nat)
    (s : Shipment) : Nat → List Nat :=
  match jsDate s.diRegistrationDate with
  | none => g
  | some d =>
    let m := d.month - 1
    if m < 12 then
      match calculateDaysBetween (f1 s) (f2 s) with
      | none => g
      | some v => fun k => if k = m then g k ++ [v] else g k
    else g

/-- The per-month day-difference samples of one lineChartData metric,
over the records not excluded by the uniqueDi flag. -/
def perfBuckets (f1 f2 : Shipment → Option String) (l : List Shipment)
    (m : Nat) : List Nat :=
  ((l.filter (fun s => s.uniqueDi != some "Yes")).foldl (perfStep f1 f2)
    (fun _ => [])) m

/-- Math.round of the arithmetic mean of a sample list, with the
empty-sample mean defined as 0 as in the avg helper of lineChartData;
round half up on an exact rational mean. -/
def avgRound (xs : List Nat) : Nat :=
  if xs.length = 0 then 0 else (2 * xs.sum + xs.length) / (2 * xs.length)

/-- One metric series of lineChartData: the 12 per-month rounded
means. -/
def lineChartSeries (f1 f2 : Shipment → Option String)
    (l : List Shipment) : List Nat :=
  (List.range 12).map (fun m => avgRound (perfBuckets f1 f2 l m))

/-- Month (0-based) of the registration date of a record, when
truthy and parseable. -/
def diMonth (s : Shipment) : Option Nat :=
  (jsDate s.diRegistrationDate).map (fun d => d.month - 1)

/-- Declarative description of the samples of one month bucket: the
day-differences of the non-uniqueDi records registered in that month
whose difference is non-null, in sequence order. -/
def monthDurations (f1 f2 : Shipment → Option String) (l : List Shipment)
    (m : Nat) : List Nat :=
  ((l.filter (fun s => s.uniqueDi != some "Yes")).filter
      (fun s => diMonth s = some m)).filterMap
    (fun s => calculateDaysBetween (f1 s) (f2 s))

/-- The LineChart view window: start and stop are the inclusive data
indices of the visible slice (stop renders the end field of the
source, a Lean keyword). Math.max with 0 is modelled by truncated
natural subtraction. -/
structure ViewRange where
  start : Nat
  stop : Nat
deriving DecidableEq, Repr

/-- Initial view window over a series of length n: the full series,
or the 0-0 window when the series is empty. -/
def initViewRange (n : Nat) : ViewRange :=
  ⟨0, if 0 < n then n - 1 else 0⟩

/-- handleZoomIn of LineChart: below a 2-index span nothing happens;
otherwise the span contracts to the ceiling of its division by 1.5
(floored at 2) and is placed around the midpoint of the current
window, clamped to the series bounds. -/
def handleZoomIn (n : Nat) (r : ViewRange) : ViewRange :=
  let cr := r.stop - r.start
  if cr < 2 then r
  else
    let center := r.start + cr / 2
    let newRange := max 2 ((2 * cr + 2) / 3)
    let newStart := center - newRange / 2
    ⟨newStart, min (n - 1) (newStart + newRange - 1)⟩

/-- handleZoomOut of LineChart: a span already covering the series
stays; otherwise the span expands to the floor of its multiplication
by 1.5 plus one (capped at the series length), is placed around the
midpoint, clamped, and shifted left if clamping shortened it. -/
def handleZoomOut (n : Nat) (r : ViewRange) : ViewRange :=
  let cr := r.stop - r.start
  if n - 1 ≤ cr then r
  else
    let center := r.start + cr / 2
    let newRange := min n (3 * cr / 2 + 1)
    let newStart := center - newRange / 2
    let newStop := min (n - 1) (newStart + newRange - 1)
    if newStop - newStart + 1 < newRange then ⟨newStop + 1 - newRange, newStop⟩
    else ⟨newStart, newStop⟩

/-- A zoom interaction. -/
inductive ZoomOp where
  | zin
  | zout
deriving DecidableEq, Repr

/-- The view window after a sequence of zoom interactions on a series
of length n. -/
def applyZoomOps (n : Nat) (ops : List ZoomOp) : ViewRange :=
  ops.foldl
    (fun r op =>
      match op with
      | .zin => handleZoomIn n r
      | .zout => handleZoomOut n r)
    (initViewRange n)

/-- A spreadsheet cell as seen by the import mapper: absent
(undefined), a string, or a number. -/
inductive CellV where
  | cnone
  | cstr (s : String)
  | cnum (n : Int)
deriving DecidableEq, Repr

/-- JS truthiness of a cell value. -/
def truthyCell (v : CellV) : Bool :=
  match v with
  | .cnone => false
  | .cstr s => s != ""
  | .cnum n => n != 0

/-- Inverse civil-calendar conversion (days since the Unix epoch to a
date), used to model the serial-date and toISOString conversions of
the import path. -/
def civilFromDays (z0 : Int) : Ymd :=
  let z := z0 + 719468
  let era : Int := z / 146097
  let doe := z - era * 146097
  let yoe := (doe - doe / 1460 + doe / 36524 - doe / 146096) / 365
  let y := yoe + era * 400
  let doy := doe - (365 * yoe + yoe / 4 - yoe / 100)
  let mp := (5 * doy + 2) / 153
  let d := doy - (153 * mp + 2) / 5 + 1
  let m := mp + (if mp < 10 then 3 else -9)
  ⟨(y + (if m ≤ 2 then 1 else 0)).toNat, m.toNat, d.toNat⟩

/-- Decimal rendering padded with leading zeros to the given width. -/
def padNum (w n : Nat) : String :=
  let s := toString n
  String.mk (List.replicate (w - s.length) '0') ++ s

/-- The YYYY-MM-DD prefix of toISOString for a UTC-midnight date. -/
def isoOfYmd (d : Ymd) : String :=
  padNum 4 d.year ++ "-" ++ padNum 2 d.month ++ "-" ++ padNum 2 d.day

/-- Model of JS parseInt on a cell part: the leading decimal-digit
prefix, NaN when there is none (signs and leading whitespace do not
occur in the spreadsheet date cells modelled here). -/
def parseIntJS (s : String) : Option Nat :=
  if (s.data.takeWhile (·.isDigit)).isEmpty then none
  else some (natOfDigits (s.data.takeWhile (·.isDigit)))

/-- parseDateFromExcel from src/index.tsx: empty cells normalize to
the empty string; numeric cells are spreadsheet serial dates with the
25569-day epoch correction; three-part slash/dot/dash strings are
day-month-year with two-digit years mapped to 1900s when above 50 and
2000s otherwise; anything else falls back to generic date parsing;
unparseable values normalize to the empty string. -/
def parseDateFromExcel (v : CellV) : String :=
  match v with
  | .cnone => ""
  | .cnum n => isoOfYmd (civilFromDays (n - 25569))
  | .cstr s =>
    match splitPred (fun c => c = '/' || c = '.' || c = '-') s with
    | [p0, p1, p2] =>
      match parseIntJS p0, parseIntJS p1, parseIntJS p2 with
      | some day, some month1, some year =>
        let fullYear := if year < 100 then
            (if 50 < year then 1900 + year else 2000 + year)
          else year
        isoOfYmd (civilFromDays (epochDay ⟨fullYear, month1, day⟩))
      | _, _, _ =>
        match parseISO s with
        | some d => isoOfYmd d
        | none => ""
    | _ =>
      match parseISO s with
      | some d => isoOfYmd d
      | none => ""

/-- The partial shipment record assembled by the upload mapper. A
field assigned an undefined cell is indistinguishable from an
unassigned field, so CellV fields default to cnone, date fields to
the empty string and numeric fields to 0, matching the downstream
falsy-value treatment; the presentational row id of the source is
omitted. -/
structure SRow where
  blAwb : CellV := .cnone
  typeOfCargo : CellV := .cnone
  costCenter : CellV := .cnone
  status : CellV := .cnone
  actualEta : String := ""
  actualEtd : String := ""
  incoterm : CellV := .cnone
  poSap : CellV := .cnone
  approvedDraftDi : CellV := .cnone
  bondedWarehouse : CellV := .cnone
  fcl : Int := 0
  invoiceValue : Int := 0
  parametrization : CellV := .cnone
  cargoPresenceDate : String := ""
  diRegistrationDate : String := ""
  greenChannelOrDeliveryAuthorizedDate : String := ""
  firstTruckDelivery : String := ""
  lastTruckDelivery : String := ""
  nfIssueDate : String := ""
  di : CellV := .cnone
  uniqueDi : CellV := .cnone
deriving DecidableEq, Repr

/-- Header key normalization of the mapper: lowercase and strip all
whitespace. -/
def normalizeKey (h : String) : String :=
  String.mk ((h.data.map jsLowerChar).filter (fun c => !c.isWhitespace))

set_option maxHeartbeats 2000000 in
/-- Application of one header-cell pair to the record being
assembled, in the exact order of the substring tests of
UploadModal.handleUpload. -/
def mapCell (sh : SRow) (header : String) (value : CellV) : SRow :=
  let key := normalizeKey header
  let sh := if containsSub key "bl" then { sh with blAwb := value } else sh
  let sh := if containsSub key "description" || containsSub key "cargo" then
    { sh with typeOfCargo := value } else sh
  let sh := if containsSub key "costcenter" then
    { sh with costCenter := value } else sh
  let sh := if containsSub key "status" then { sh with status := value } else sh
  let sh := if containsSub key "eta" then
    { sh with actualEta := parseDateFromExcel value } else sh
  let sh := if containsSub key "etd" then
    { sh with actualEtd := parseDateFromExcel value } else sh
  let sh := if containsSub key "incoterm" then
    { sh with incoterm := value } else sh
  let sh := if containsSub key "posap" then { sh with poSap := value } else sh
  let sh := if containsSub key "approveddraftdi" then
    { sh with approvedDraftDi := value } else sh
  let sh := if containsSub key "bondedwarehouse" then
    { sh with bondedWarehouse := value } else sh
  let sh := if containsSub key "fcl" then
    { sh with fcl := match value with | .cnum n => n | _ => 0 } else sh
  let sh := if containsSub key "invoicevalue" then
    { sh with invoiceValue := match value with | .cnum n => n | _ => 0 }
    else sh
  let sh := if containsSub key "parametrization" then
    { sh with parametrization := value } else sh
  let sh := if containsSub key "cargopresence" then
    { sh with cargoPresenceDate := parseDateFromExcel value } else sh
  let sh := if containsSub key "diregistration" then
    { sh with diRegistrationDate := parseDateFromExcel value } else sh
  let sh := if containsSub key "greenchannel" || containsSub key "deliveryauthorized" then
    { sh with greenChannelOrDeliveryAuthorizedDate := parseDateFromExcel value }
    else sh
  let sh := if containsSub key "firsttruck" then
    { sh with firstTruckDelivery := parseDateFromExcel value } else sh
  let sh := if containsSub key "lasttruck" then
    { sh with lastTruckDelivery := parseDateFromExcel value } else sh
  let sh := if containsSub key "nfissue" then
    { sh with nfIssueDate := parseDateFromExcel value } else sh
  let sh := if containsSub key "di" && !containsSub key "registration"
      && !containsSub key "draft" && !containsSub key "cif" then
    { sh with di := value } else sh
  let sh := if containsSub key "uniquedi" then
    { sh with uniqueDi := value } else sh
  sh

/-- Mapping of one data row under the header row: each header is
paired with the cell in its column (undefined when the row is
short). -/
def mapRow (headers : List String) (row : List CellV) : SRow :=
  headers.enum.foldl
    (fun sh p => mapCell sh p.2 (row.getD p.1 .cnone)) {}

/-- The record sequence produced by the upload handler: every data
row is mapped, then rows whose mapped carrier-document reference is
falsy are dropped. -/
def handleUploadRows (headers : List String) (rows : List (List CellV)) :
    List SRow :=
  (rows.map (mapRow headers)).filter (fun r => truthyCell r.blAwb)

/-- Midpoint index of a view window. -/
def viewMid (r : ViewRange) : Nat := r.start + (r.stop - r.start) / 2

/-- A sample LCL record with a positive container field, used to
instantiate general theorems. -/
def lclSample : Shipment :=
  { shipmentType := some "LCL", fcl := some 7,
    status := some "AT THE PORT", bondedWarehouse := some "TPC",
    actualEta := some "2024-08-10" }

/-- A sample FCL record with an absent container field, used to
instantiate general theorems. -/
def fclSample : Shipment :=
  { shipmentType := some "FCL", status := some "IN TRANSIT",
    bondedWarehouse := some "Tecon Salvador" }

/- ------------------------------------------------------------------
   Helper lemmas
   ------------------------------------------------------------------ -/

theorem sum_map_addFn {α : Type} (l : List α) (f g : α → Nat) :
    (l.map fun x => f x + g x).sum = (l.map f).sum + (l.map g).sum := by
  induction l with
  | nil => simp
  | cons a l ih => simp only [List.map_cons, List.sum_cons, ih]; omega

theorem sum_map_ite_count {α : Type} (l : List α) (p : α → Bool) :
    (l.map fun x => if p x then 1 else 0).sum = (l.filter p).length := by
  induction l with
  | nil => simp
  | cons a l ih =>
    by_cases h : p a = true
    · simp [List.filter_cons, h, ih]
      omega
    · simp [List.filter_cons, h, ih]

theorem statusStep_apply (keys : List String) (w : Shipment → Nat)
    (g : String → Nat) (s : Shipment) (k : String) :
    statusStep keys w g s k = g k + statusContrib keys w s k := by
  unfold statusStep statusContrib
  cases s.status with
  | none => simp
  | some st =>
    by_cases h1 : st ∈ keys
    · simp only [h1, if_pos]
      by_cases h2 : k = st <;> simp [h2]
    · simp only [h1, if_neg, if_false]
      by_cases h2 : st = "CARGO READY"
      · simp only [h2, if_pos]
        by_cases h3 : k = "AT THE PORT" <;> simp [h2, h3]
      · simp [h1, h2]

theorem statusFold_eq (keys : List String) (w : Shipment → Nat)
    (l : List Shipment) : ∀ (g : String → Nat) (k : String),
    (l.foldl (statusStep keys w) g) k
      = g k + (l.map fun s => statusContrib keys w s k).sum := by
  induction l with
  | nil => intro g k; simp
  | cons a l ih =>
    intro g k
    simp only [List.foldl_cons, List.map_cons, List.sum_cons, ih,
      statusStep_apply]
    omega

theorem statusGroupCount_eq_sum (keys : List String) (w : Shipment → Nat)
    (l : List Shipment) (k : String) :
    statusGroupCount keys w l k
      = (l.map fun s => statusContrib keys w s k).sum := by
  unfold statusGroupCount
  rw [statusFold_eq]
  omega

theorem keylist_sum (ks keys : List String) (w : Shipment → Nat)
    (l : List Shipment) :
    (ks.map fun k => statusGroupCount keys w l k).sum
      = (l.map fun s => (ks.map fun k => statusContrib keys w s k).sum).sum := by
  induction ks with
  | nil => simp
  | cons k ks ih =>
    simp only [List.map_cons, List.sum_cons]
    rw [ih, statusGroupCount_eq_sum, sum_map_addFn]

theorem statusContrib_bl_total (s : Shipment) :
    (opStatusKeys.map fun k => statusContrib opStatusKeys (fun _ => 1) s k).sum
      = if recognizedBLStatus s then 1 else 0 := by
  unfold statusContrib recognizedBLStatus opStatusKeys
  cases hst : s.status with
  | none => simp
  | some st =>
    simp only [hst]
    by_cases h1 : st = "IN TRANSIT"
    · subst h1; simp
    · by_cases h2 : st = "AT THE PORT"
      · subst h2; simp
      · by_cases h3 : st = "DI REGISTERED"
        · subst h3; simp
        · by_cases h4 : st = "CARGO CLEARED"
          · subst h4; simp
          · by_cases h5 : st = "CARGO READY"
            · subst h5; simp
            · simp [h1, h2, h3, h4, h5]

theorem statusByBLs_sum_aux (l : List Shipment) :
    ((statusByBLsData l).map Prod.snd).sum
      = (l.filter recognizedBLStatus).length := by
  have h1 : (statusByBLsData l).map Prod.snd
      = opStatusKeys.map fun k => statusGroupCount opStatusKeys (fun _ => 1) l k := by
    simp [statusByBLsData, List.map_map, Function.comp]
  rw [h1, keylist_sum]
  simp only [statusContrib_bl_total]
  rw [sum_map_ite_count]

/- ------------------------------------------------------------------
   C1: the by-BLs status grouping partitions the recognized statuses
   ------------------------------------------------------------------ -/

/-- C1: for any shipment sequence and any filter, the sum of the
per-bucket counts of the Shipment Status (by BLs) grouping equals the
number of filtered records whose status is recognized (one of the four
bucket statuses or the CARGO READY alias folded into AT THE PORT);
records with an absent or unrecognized status contribute to no
bucket. -/
theorem statusByBLs_sum_eq_recognized (f : KpiFilters)
    (shipments : List Shipment) :
    ((statusByBLsData (filteredShipments (fun s => s.actualEta) f shipments)).map
        Prod.snd).sum
      = ((filteredShipments (fun s => s.actualEta) f shipments).filter
          recognizedBLStatus).length :=
  statusByBLs_sum_aux _

theorem cargoMatch_iff (f : KpiFilters) (s : Shipment) :
    (f.cargo.isEmpty
      || (match s.typeOfCargo with
          | some t => f.cargo.contains t
          | none => false)) = true
      ↔ (f.cargo = [] ∨ ∃ t, s.typeOfCargo = some t ∧ t ∈ f.cargo) := by
  cases hc : s.typeOfCargo <;>
    simp [hc, List.isEmpty_iff, List.elem_iff]

theorem yearMatch_iff (y : Option Nat) (v : Nat) :
    (match y with
      | none => true
      | some w => v == w) = true ↔ (y = none ∨ y = some v) := by
  cases y with
  | none => simp
  | some w =>
    simp only [beq_iff_eq, Option.some.injEq]
    constructor
    · intro h
      exact Or.inr h.symm
    · rintro (h | h)
      · exact absurd h (by simp)
      · exact h.symm

/- ------------------------------------------------------------------
   C2: semantics of the dashboard filter predicate
   ------------------------------------------------------------------ -/

/-- C2: a record passes the dashboard filter exactly when its cargo
type is in the cargo set (or the set is empty), its reference date
field is truthy and parses, and the parsed year and month match the
filter components unless these are set to All; in particular a record
whose reference date is absent, empty or unparseable never passes. -/
theorem passesFilter_iff (df : Shipment → Option String) (f : KpiFilters)
    (s : Shipment) :
    (passesFilter df f s = true
      ↔ ((f.cargo = [] ∨ ∃ t, s.typeOfCargo = some t ∧ t ∈ f.cargo)
          ∧ ∃ d, jsDate (df s) = some d
              ∧ (f.year = none ∨ f.year = some d.year)
              ∧ (f.month = none ∨ f.month = some (d.month - 1))))
    ∧ (jsDate (df s) = none → passesFilter df f s = false) := by
  constructor
  · unfold passesFilter
    cases hd : jsDate (df s) with
    | none => simp
    | some d =>
      simp only [Bool.and_eq_true]
      rw [cargoMatch_iff]
      constructor
      · rintro ⟨⟨hc, hy⟩, hm⟩
        exact ⟨hc, d, rfl, (yearMatch_iff f.year d.year).mp hy,
          (yearMatch_iff f.month (d.month - 1)).mp hm⟩
      · rintro ⟨hc, d2, hd2, hy, hm⟩
        obtain rfl : d = d2 := by
          simpa using hd2
        exact ⟨⟨hc, (yearMatch_iff f.year d.year).mpr hy⟩,
          (yearMatch_iff f.month (d.month - 1)).mpr hm⟩
  · intro hd
    unfold passesFilter
    rw [hd]

theorem parseISO_month_bound {s : String} {d : Ymd}
    (h : parseISO s = some d) : 1 ≤ d.month ∧ d.month ≤ 12 := by
  unfold parseISO at h
  split at h
  · split at h
    · split at h
      · rename_i hrange
        obtain rfl : Ymd.mk _ _ _ = d := by simpa using h
        exact ⟨hrange.2.1, hrange.2.2.1⟩
      · exact absurd h (by simp)
    · exact absurd h (by simp)
  · exact absurd h (by simp)

theorem jsDate_month_bound {v : Option String} {d : Ymd}
    (h : jsDate v = some d) : 1 ≤ d.month ∧ d.month ≤ 12 := by
  cases v with
  | none => exact absurd h (by simp [jsDate])
  | some s =>
    have h2 : (if s = "" then none else parseISO s) = some d := h
    by_cases he : s = ""
    · rw [if_pos he] at h2
      cases h2
    · rw [if_neg he] at h2
      exact parseISO_month_bound h2

theorem perfStep_apply (f1 f2 : Shipment → Option String)
    (g : Nat → List Nat) (s : Shipment) (m : Nat) :
    perfStep f1 f2 g s m
      = g m ++ (if diMonth s = some m then
          (calculateDaysBetween (f1 s) (f2 s)).toList else []) := by
  cases hd : jsDate s.diRegistrationDate with
  | none => simp [perfStep, diMonth, hd]
  | some d =>
    have hb := jsDate_month_bound hd
    simp only [perfStep, diMonth, hd, Option.map_some]
    rw [if_pos (by omega : d.month - 1 < 12)]
    cases hc : calculateDaysBetween (f1 s) (f2 s) with
    | none => simp
    | some v =>
      by_cases hk : d.month - 1 = m
      · subst hk
        simp
      · have hk2 : ¬m = d.month - 1 := fun hh => hk hh.symm
        simp [hk, hk2]

theorem perfFold_eq (f1 f2 : Shipment → Option String) (l : List Shipment) :
    ∀ (g : Nat → List Nat) (m : Nat),
    (l.foldl (perfStep f1 f2) g) m
      = g m ++ ((l.filter fun s => diMonth s = some m).filterMap
          fun s => calculateDaysBetween (f1 s) (f2 s)) := by
  induction l with
  | nil => intro g m; simp
  | cons a l ih =>
    intro g m
    simp only [List.foldl_cons, List.filter_cons]
    rw [ih, perfStep_apply]
    by_cases hm : diMonth a = some m
    · simp only [hm, if_pos, List.filterMap_cons]
      cases hc : calculateDaysBetween (f1 a) (f2 a) <;>
        simp [hc, List.append_assoc]
    · simp [hm]

theorem perfBuckets_eq_monthDurations (f1 f2 : Shipment → Option String)
    (l : List Shipment) (m : Nat) :
    perfBuckets f1 f2 l m = monthDurations f1 f2 l m := by
  unfold perfBuckets monthDurations
  rw [perfFold_eq]
  simp

theorem monthDurations_drop_none (f1 f2 : Shipment → Option String)
    (s : Shipment) (l1 l2 : List Shipment) (m : Nat)
    (h : calculateDaysBetween (f1 s) (f2 s) = none) :
    monthDurations f1 f2 (l1 ++ s :: l2) m = monthDurations f1 f2 (l1 ++ l2) m := by
  unfold monthDurations
  by_cases h1 : (s.uniqueDi != some "Yes") = true
  · by_cases h2 : diMonth s = some m
    · simp [List.filter_append, List.filter_cons, h1, h2,
        List.filterMap_append, List.filterMap_cons, h]
    · simp [List.filter_append, List.filter_cons, h1, h2]
  · simp [List.filter_append, List.filter_cons, h1]

/- ------------------------------------------------------------------
   C3: semantics of calculateDaysBetween
   ------------------------------------------------------------------ -/

/-- C3: on two parseable date strings, calculateDaysBetween is the
ceiling of the absolute millisecond difference divided by the
milliseconds in a day (the ceiling characterized order-theoretically);
a missing endpoint yields null, never zero; the concrete examples of
the specification hold; and a record whose day-difference is null
contributes nothing to the month buckets of the duration metrics. -/
theorem calculateDaysBetween_spec :
    (∀ s t d1 d2, parseISO s = some d1 → parseISO t = some d2 →
      calculateDaysBetween (some s) (some t)
        = some (natCeilDiv (msOfYmd d2 - msOfYmd d1).natAbs 86400000))
    ∧ (∀ s t d1 d2 q, parseISO s = some d1 → parseISO t = some d2 →
        calculateDaysBetween (some s) (some t) = some q →
        (msOfYmd d2 - msOfYmd d1).natAbs ≤ q * 86400000
          ∧ q * 86400000 < (msOfYmd d2 - msOfYmd d1).natAbs + 86400000)
    ∧ (∀ x, calculateDaysBetween none x = none
        ∧ calculateDaysBetween x none = none)
    ∧ calculateDaysBetween (some "2024-01-01") (some "2024-01-03") = some 2
    ∧ calculateDaysBetween none (some "2024-01-03") = none
    ∧ (∀ f1 f2 s l1 l2 m, calculateDaysBetween (f1 s) (f2 s) = none →
        perfBuckets f1 f2 (l1 ++ s :: l2) m = perfBuckets f1 f2 (l1 ++ l2) m) := by
  have hempty : parseISO "" = none := by decide
  have hsome : ∀ s t : String, calculateDaysBetween (some s) (some t)
      = if s = "" ∨ t = "" then none
        else match dateMs s, dateMs t with
          | some a, some b => some (natCeilDiv (b - a).natAbs 86400000)
          | _, _ => none := fun _ _ => rfl
  have hmain : ∀ s t d1 d2, parseISO s = some d1 → parseISO t = some d2 →
      calculateDaysBetween (some s) (some t)
        = some (natCeilDiv (msOfYmd d2 - msOfYmd d1).natAbs 86400000) := by
    intro s t d1 d2 h1 h2
    have hs : ¬(s = "" ∨ t = "") := by
      rintro (rfl | rfl)
      · rw [hempty] at h1
        cases h1
      · rw [hempty] at h2
        cases h2
    rw [hsome, if_neg hs]
    simp [dateMs, h1, h2]
  refine ⟨hmain, ?_, ?_, ?_, ?_, ?_⟩
  · intro s t d1 d2 q h1 h2 hq
    rw [hmain s t d1 d2 h1 h2] at hq
    obtain rfl : natCeilDiv (msOfYmd d2 - msOfYmd d1).natAbs 86400000 = q := by
      simpa using hq
    unfold natCeilDiv
    omega
  · intro x
    constructor
    · rfl
    · cases x <;> rfl
  · decide
  · rfl
  · intro f1 f2 s l1 l2 m hnone
    rw [perfBuckets_eq_monthDurations, perfBuckets_eq_monthDurations]
    exact monthDurations_drop_none f1 f2 s l1 l2 m hnone

/-- Witness for C3: the general ceiling form applied at the concrete
example dates of the specification. -/
theorem calculateDaysBetween_spec_witness :
    parseISO "2024-01-01" = some ⟨2024, 1, 1⟩
    ∧ parseISO "2024-01-03" = some ⟨2024, 1, 3⟩
    ∧ calculateDaysBetween (some "2024-01-01") (some "2024-01-03")
        = some (natCeilDiv (msOfYmd ⟨2024, 1, 3⟩ - msOfYmd ⟨2024, 1, 1⟩).natAbs
            86400000) :=
  ⟨by decide, by decide,
    calculateDaysBetween_spec.1 "2024-01-01" "2024-01-03"
      ⟨2024, 1, 1⟩ ⟨2024, 1, 3⟩ (by decide) (by decide)⟩

/- ------------------------------------------------------------------
   C4: shape and content of the monthly duration series
   ------------------------------------------------------------------ -/

/-- C4: every lineChartData duration series has exactly 12 entries
indexed by calendar month; the entry of a month is the rounded
arithmetic mean of the day-differences of the contributing records of
that month, and a month with no contributing records reports exactly
0. -/
theorem lineChartSeries_months (f1 f2 : Shipment → Option String)
    (l : List Shipment) (m : Nat) (hm : m < 12) :
    (lineChartSeries f1 f2 l).length = 12
    ∧ (lineChartSeries f1 f2 l).getD m 0 = avgRound (monthDurations f1 f2 l m)
    ∧ (monthDurations f1 f2 l m = [] →
        (lineChartSeries f1 f2 l).getD m 0 = 0) := by
  have hget : (lineChartSeries f1 f2 l).getD m 0
      = avgRound (monthDurations f1 f2 l m) := by
    unfold lineChartSeries
    rw [List.getD_eq_getElem?_getD, List.getElem?_map, List.getElem?_range hm]
    simp [perfBuckets_eq_monthDurations]
  refine ⟨by simp [lineChartSeries], hget, ?_⟩
  intro hnil
  rw [hget, hnil]
  simp [avgRound]

/-- Witness for C4: the month-shape theorem applied to a concrete
two-record sequence at month 2. -/
theorem lineChartSeries_months_witness :
    (2 : Nat) < 12
    ∧ ((lineChartSeries (fun s => s.cargoPresenceDate)
          (fun s => s.greenChannelOrDeliveryAuthorizedDate)
          [{ diRegistrationDate := some "2024-03-10",
             cargoPresenceDate := some "2024-03-01",
             greenChannelOrDeliveryAuthorizedDate := some "2024-03-04" }]).length
          = 12
        ∧ (lineChartSeries (fun s => s.cargoPresenceDate)
            (fun s => s.greenChannelOrDeliveryAuthorizedDate)
            [{ diRegistrationDate := some "2024-03-10",
               cargoPresenceDate := some "2024-03-01",
               greenChannelOrDeliveryAuthorizedDate := some "2024-03-04" }]).getD 2 0
            = avgRound (monthDurations (fun s => s.cargoPresenceDate)
                (fun s => s.greenChannelOrDeliveryAuthorizedDate)
                [{ diRegistrationDate := some "2024-03-10",
                   cargoPresenceDate := some "2024-03-01",
                   greenChannelOrDeliveryAuthorizedDate := some "2024-03-04" }] 2)
        ∧ (monthDurations (fun s => s.cargoPresenceDate)
              (fun s => s.greenChannelOrDeliveryAuthorizedDate)
              [{ diRegistrationDate := some "2024-03-10",
                 cargoPresenceDate := some "2024-03-01",
                 greenChannelOrDeliveryAuthorizedDate := some "2024-03-04" }] 2
              = [] →
            (lineChartSeries (fun s => s.cargoPresenceDate)
              (fun s => s.greenChannelOrDeliveryAuthorizedDate)
              [{ diRegistrationDate := some "2024-03-10",
                 cargoPresenceDate := some "2024-03-01",
                 greenChannelOrDeliveryAuthorizedDate := some "2024-03-04" }]).getD 2 0
              = 0)) :=
  ⟨by decide,
    lineChartSeries_months (fun s => s.cargoPresenceDate)
      (fun s => s.greenChannelOrDeliveryAuthorizedDate)
      [{ diRegistrationDate := some "2024-03-10",
         cargoPresenceDate := some "2024-03-01",
         greenChannelOrDeliveryAuthorizedDate := some "2024-03-04" }] 2
      (by decide)⟩

theorem dedup_append_two (l : List String) (d : String) (h : d ∉ l) :
    ((l ++ [d, d]).dedup).length = l.dedup.length + 1 := by
  rw [← List.card_toFinset, ← List.card_toFinset, List.toFinset_append]
  rw [show ([d, d] : List String).toFinset = {d} from by simp]
  rw [Finset.union_comm, show ({d} : Finset String) ∪ l.toFinset
    = insert d l.toFinset from by rw [Finset.insert_eq]]
  exact Finset.card_insert_of_not_mem (by simpa using h)

theorem diChannelDIs_mem (l : List Shipment) (c d : String) :
    d ∈ diChannelDIs l c
      ↔ ∃ s ∈ l, (s.parametrization = some c ∧ truthyStr s.di)
          ∧ s.di = some d := by
  unfold diChannelDIs
  simp only [List.mem_filterMap]
  constructor
  · rintro ⟨s, hs, hf⟩
    by_cases hp : s.parametrization = some c ∧ truthyStr s.di
    · rw [if_pos hp] at hf
      exact ⟨s, hs, hp, hf⟩
    · rw [if_neg hp] at hf
      cases hf
  · rintro ⟨s, hs, hp, hdi⟩
    refine ⟨s, hs, ?_⟩
    rw [if_pos hp]
    exact hdi

theorem diParamDIs_mem (l : List Shipment) (c d : String) :
    d ∈ diParamDIs l c
      ↔ ∃ s ∈ l, (truthyStr s.di ∧ s.parametrization = some c)
          ∧ s.di = some d := by
  unfold diParamDIs
  simp only [List.mem_filterMap]
  constructor
  · rintro ⟨s, hs, hf⟩
    by_cases hp : truthyStr s.di ∧ s.parametrization = some c
    · rw [if_pos hp] at hf
      exact ⟨s, hs, hp, hf⟩
    · rw [if_neg hp] at hf
      cases hf
  · rintro ⟨s, hs, hp, hdi⟩
    refine ⟨s, hs, ?_⟩
    rw [if_pos hp]
    exact hdi

/- ------------------------------------------------------------------
   C5: DI deduplication within channel buckets
   ------------------------------------------------------------------ -/

/-- C5 counterexample: against a base sequence that already carries
the DI number D1 in the Green channel, appending two further Green
records with DI D1 leaves the unique-DI counts unchanged, so the
unconditional increase-by-one of the claim fails (the plain shipment
count does increase by two). -/
theorem diChannel_pair_not_plus_one :
    diChannelUnique
        [{ parametrization := some "Green", di := some "D1" },
         { parametrization := some "Green", di := some "D1" },
         { parametrization := some "Green", di := some "D1" }] "Green"
      = diChannelUnique
          [{ parametrization := some "Green", di := some "D1" }] "Green"
    ∧ ¬(diChannelUnique
          [{ parametrization := some "Green", di := some "D1" },
           { parametrization := some "Green", di := some "D1" },
           { parametrization := some "Green", di := some "D1" }] "Green"
        = diChannelUnique
            [{ parametrization := some "Green", di := some "D1" }] "Green" + 1)
    ∧ ¬(diParamValue
          [{ parametrization := some "Green", di := some "D1" },
           { parametrization := some "Green", di := some "D1" },
           { parametrization := some "Green", di := some "D1" }] "Green"
        = diParamValue
            [{ parametrization := some "Green", di := some "D1" }] "Green" + 1)
    ∧ diChannelValue
        [{ parametrization := some "Green", di := some "D1" },
         { parametrization := some "Green", di := some "D1" },
         { parametrization := some "Green", di := some "D1" }] "Green"
      = diChannelValue
          [{ parametrization := some "Green", di := some "D1" }] "Green" + 2 := by
  refine ⟨by decide, by decide, by decide, by decide⟩

/-- C5 (amended): appending two records with the same nonempty DI
number and the same valid channel to a sequence in which that DI does
not yet occur in that channel raises the unique-DI count of that
channel by exactly 1 (in both the brokerage and the performance
aggregates) and the plain shipment count by exactly 2. -/
theorem diChannel_fresh_pair_add (base : List Shipment) (n1 n2 : Shipment)
    (c d : String) (hc : c ∈ channelKeys)
    (hp1 : n1.parametrization = some c) (hp2 : n2.parametrization = some c)
    (hd1 : n1.di = some d) (hd2 : n2.di = some d) (hne : d ≠ "")
    (hfresh : ∀ s ∈ base, ¬(s.parametrization = some c ∧ s.di = some d)) :
    diChannelUnique (base ++ [n1, n2]) c = diChannelUnique base c + 1
    ∧ diParamValue (base ++ [n1, n2]) c = diParamValue base c + 1
    ∧ diChannelValue (base ++ [n1, n2]) c = diChannelValue base c + 2 := by
  have htr : truthyStr (some d) = true := by
    simp [truthyStr, hne]
  refine ⟨?_, ?_, ?_⟩
  · unfold diChannelUnique
    rw [if_pos hc, if_pos hc]
    have hDIs : diChannelDIs (base ++ [n1, n2]) c
        = diChannelDIs base c ++ [d, d] := by
      unfold diChannelDIs
      rw [List.filterMap_append]
      congr 1
      simp [hp1, hp2, hd1, hd2, htr]
    have hdmem : d ∉ diChannelDIs base c := by
      intro hmem
      obtain ⟨s, hs, hcond, hdi⟩ := (diChannelDIs_mem base c d).mp hmem
      exact hfresh s hs ⟨hcond.1, hdi⟩
    rw [hDIs]
    exact dedup_append_two _ _ hdmem
  · unfold diParamValue
    rw [if_pos hc, if_pos hc]
    have hDIs : diParamDIs (base ++ [n1, n2]) c
        = diParamDIs base c ++ [d, d] := by
      unfold diParamDIs
      rw [List.filterMap_append]
      congr 1
      simp [hp1, hp2, hd1, hd2, htr]
    have hdmem : d ∉ diParamDIs base c := by
      intro hmem
      obtain ⟨s, hs, hcond, hdi⟩ := (diParamDIs_mem base c d).mp hmem
      exact hfresh s hs ⟨hcond.2, hdi⟩
    rw [hDIs]
    exact dedup_append_two _ _ hdmem
  · unfold diChannelValue
    rw [if_pos hc, if_pos hc]
    rw [List.filter_append, List.length_append]
    simp [hp1, hp2]

/-- Witness for the amended C5: the fresh-pair theorem applied to the
empty base sequence and two concrete Green records with DI D1. -/
theorem diChannel_fresh_pair_add_witness :
    ("Green" ∈ channelKeys ∧ ("D1" : String) ≠ "")
    ∧ (diChannelUnique
          ([] ++ [({ parametrization := some "Green", di := some "D1" } : Shipment),
                  { parametrization := some "Green", di := some "D1" }]) "Green"
        = diChannelUnique [] "Green" + 1
      ∧ diParamValue
          ([] ++ [({ parametrization := some "Green", di := some "D1" } : Shipment),
                  { parametrization := some "Green", di := some "D1" }]) "Green"
        = diParamValue [] "Green" + 1
      ∧ diChannelValue
          ([] ++ [({ parametrization := some "Green", di := some "D1" } : Shipment),
                  { parametrization := some "Green", di := some "D1" }]) "Green"
        = diChannelValue [] "Green" + 2) :=
  ⟨⟨by decide, by decide⟩,
    diChannel_fresh_pair_add []
      { parametrization := some "Green", di := some "D1" }
      { parametrization := some "Green", di := some "D1" }
      "Green" "D1" (by decide) rfl rfl rfl rfl (by decide) (by simp)⟩

theorem cargoVolStep_apply (g : String → String → Nat) (s : Shipment)
    (m t : String) :
    cargoVolStep g s m t = g m t + cargoVolContrib s m t := by
  cases hd : jsDate s.actualEta with
  | none => simp [cargoVolStep, cargoVolContrib, hd]
  | some d =>
    by_cases hty : s.shipmentType = some "FCL" ∨ s.shipmentType = some "FCL/LCL"
    · simp only [cargoVolStep, cargoVolContrib, hd, if_pos hty]
      by_cases h6 : 6 ≤ d.month - 1
      · rw [if_pos h6, if_pos h6]
        by_cases hcv : 0 < s.fcl.getD 0
        · rw [if_pos hcv]
          by_cases hmt : m = monthLabels6.getD (d.month - 1 - 6) ""
              ∧ t = normalizeTerminalName s.bondedWarehouse
          · rw [if_pos hmt, if_pos ⟨hcv, hmt⟩]
          · rw [if_neg hmt, if_neg (fun h => hmt h.2)]
            simp
        · rw [if_neg hcv, if_neg (fun h => hcv h.1)]
          simp
      · rw [if_neg h6, if_neg h6]
        simp
    · simp only [cargoVolStep, cargoVolContrib, hd, if_neg hty]
      by_cases h6 : 6 ≤ d.month - 1
      · rw [if_pos h6, if_pos h6,
          if_neg (by omega : ¬(0 : Nat) < 0), if_neg]
        · simp
        · rintro ⟨hpos, -⟩
          exact absurd hpos (by omega)
      · rw [if_neg h6, if_neg h6]
        simp

theorem cargoVolFold_eq (l : List Shipment) :
    ∀ (g : String → String → Nat) (m t : String),
    (l.foldl cargoVolStep g) m t
      = g m t + (l.map fun s => cargoVolContrib s m t).sum := by
  induction l with
  | nil => intro g m t; simp
  | cons a l ih =>
    intro g m t
    simp only [List.foldl_cons, List.map_cons, List.sum_cons, ih,
      cargoVolStep_apply]
    omega

theorem cargoVolume_eq_sum (l : List Shipment) (m t : String) :
    cargoVolume l m t = (l.map fun s => cargoVolContrib s m t).sum := by
  unfold cargoVolume
  rw [cargoVolFold_eq]
  omega

theorem warehouseVolStep_apply (g : String → Nat) (s : Shipment)
    (k : String) :
    warehouseVolStep g s k = g k + warehouseContrib s k := by
  unfold warehouseVolStep warehouseContrib
  by_cases hw : normalizeTerminalName s.bondedWarehouse = "N/A"
  · simp [hw]
  · simp only [hw, if_false]
    by_cases hk : k = normalizeTerminalName s.bondedWarehouse
    · simp [hk]
    · simp [hk]

theorem warehouseFold_eq (l : List Shipment) :
    ∀ (g : String → Nat) (k : String),
    (l.foldl warehouseVolStep g) k
      = g k + (l.map fun s => warehouseContrib s k).sum := by
  induction l with
  | nil => intro g k; simp
  | cons a l ih =>
    intro g k
    simp only [List.foldl_cons, List.map_cons, List.sum_cons, ih,
      warehouseVolStep_apply]
    omega

theorem warehouseVolume_eq_sum (l : List Shipment) (k : String) :
    containerVolumeByWarehouse l k
      = (l.map fun s => warehouseContrib s k).sum := by
  unfold containerVolumeByWarehouse
  rw [warehouseFold_eq]
  omega

theorem statusContrib_of_w_zero (keys : List String) (w : Shipment → Nat)
    (s : Shipment) (k : String) (h : w s = 0) :
    statusContrib keys w s k = 0 := by
  unfold statusContrib
  cases s.status with
  | none => rfl
  | some st =>
    by_cases h1 : st ∈ keys
    · simp [h1, h]
    · by_cases h2 : st = "CARGO READY"
      · simp [h1, h2, h]
      · simp [h1, h2]

theorem statusCount_splice (keys : List String) (w : Shipment → Nat)
    (l1 l2 : List Shipment) (s : Shipment) (k : String)
    (h : statusContrib keys w s k = 0) :
    statusGroupCount keys w (l1 ++ s :: l2) k
      = statusGroupCount keys w (l1 ++ l2) k := by
  rw [statusGroupCount_eq_sum, statusGroupCount_eq_sum]
  simp [h]

theorem statusCount_append (keys : List String) (w : Shipment → Nat)
    (l : List Shipment) (s : Shipment) (k : String) :
    statusGroupCount keys w (l ++ [s]) k
      = statusGroupCount keys w l k + statusContrib keys w s k := by
  rw [statusGroupCount_eq_sum, statusGroupCount_eq_sum]
  simp

theorem cargoVolContrib_of_nonFCL (s : Shipment) (m t : String)
    (h1 : s.shipmentType ≠ some "FCL") (h2 : s.shipmentType ≠ some "FCL/LCL") :
    cargoVolContrib s m t = 0 := by
  cases hd : jsDate s.actualEta with
  | none => simp [cargoVolContrib, hd]
  | some d =>
    simp only [cargoVolContrib, hd]
    have hcv : (if s.shipmentType = some "FCL"
        ∨ s.shipmentType = some "FCL/LCL" then s.fcl.getD 0 else 0) = 0 := by
      rw [if_neg (fun h => h.elim h1 h2)]
    split
    · rw [if_neg]
      rintro ⟨hpos, -, -⟩
      rw [hcv] at hpos
      exact Nat.lt_irrefl 0 hpos
    · rfl

theorem cargoVolContrib_of_fcl_falsy (s : Shipment) (m t : String)
    (hf0 : s.fcl = none ∨ s.fcl = some 0) :
    cargoVolContrib s m t = 0 := by
  cases hd : jsDate s.actualEta with
  | none => simp [cargoVolContrib, hd]
  | some d =>
    simp only [cargoVolContrib, hd]
    have hcv : (if s.shipmentType = some "FCL"
        ∨ s.shipmentType = some "FCL/LCL" then s.fcl.getD 0 else 0) = 0 := by
      rcases hf0 with h | h <;> rw [h] <;> split <;> rfl
    split
    · rw [if_neg]
      rintro ⟨hpos, -, -⟩
      rw [hcv] at hpos
      exact Nat.lt_irrefl 0 hpos
    · rfl

theorem warehouseContrib_of_cc_zero (s : Shipment) (k : String)
    (h : containerCount s = 0) : warehouseContrib s k = 0 := by
  simp only [warehouseContrib, h]
  split
  · rfl
  · split <;> rfl

/- ------------------------------------------------------------------
   C6: non-FCL modes contribute zero containers
   ------------------------------------------------------------------ -/

/-- C6: a record whose shipment mode is not FCL and not FCL/LCL (for
example LCL) contributes exactly 0 to every container-count aggregate
regardless of its fcl field: removing such a record from anywhere in
the sequence changes no status-by-containers bucket, no per-month
per-terminal cargo volume and no per-warehouse container volume. -/
theorem nonFCL_zero_container_contribution (s : Shipment)
    (h1 : s.shipmentType ≠ some "FCL") (h2 : s.shipmentType ≠ some "FCL/LCL") :
    ∀ (keys : List String) (l1 l2 : List Shipment) (k m t kw : String),
      statusByContainersCount keys (l1 ++ s :: l2) k
        = statusByContainersCount keys (l1 ++ l2) k
      ∧ cargoVolume (l1 ++ s :: l2) m t = cargoVolume (l1 ++ l2) m t
      ∧ containerVolumeByWarehouse (l1 ++ s :: l2) kw
          = containerVolumeByWarehouse (l1 ++ l2) kw := by
  have hcc : containerCount s = 0 := by
    unfold containerCount
    rw [if_neg (fun h => h.elim h1 h2)]
  intro keys l1 l2 k m t kw
  refine ⟨?_, ?_, ?_⟩
  · exact statusCount_splice keys containerCount l1 l2 s k
      (statusContrib_of_w_zero keys containerCount s k hcc)
  · rw [cargoVolume_eq_sum, cargoVolume_eq_sum]
    simp [cargoVolContrib_of_nonFCL s m t h1 h2]
  · rw [warehouseVolume_eq_sum, warehouseVolume_eq_sum]
    simp [warehouseContrib_of_cc_zero s kw hcc]

/-- Witness for C6: a concrete LCL record with a positive fcl field
removed from a concrete one-record sequence. -/
theorem nonFCL_zero_container_contribution_witness :
    (lclSample.shipmentType ≠ some "FCL"
      ∧ lclSample.shipmentType ≠ some "FCL/LCL")
    ∧ (statusByContainersCount opStatusKeys ([] ++ lclSample :: []) "AT THE PORT"
        = statusByContainersCount opStatusKeys ([] ++ []) "AT THE PORT"
      ∧ cargoVolume ([] ++ lclSample :: []) "Agosto" "TPC"
        = cargoVolume ([] ++ []) "Agosto" "TPC"
      ∧ containerVolumeByWarehouse ([] ++ lclSample :: []) "TPC"
        = containerVolumeByWarehouse ([] ++ []) "TPC") :=
  ⟨⟨by decide, by decide⟩,
    nonFCL_zero_container_contribution lclSample (by decide) (by decide)
      opStatusKeys [] [] "AT THE PORT" "Agosto" "TPC" "TPC"⟩

/- ------------------------------------------------------------------
   C10: divergent falsy-fcl fallbacks across container aggregates
   ------------------------------------------------------------------ -/

/-- C10: for an FCL or FCL/LCL record whose fcl field is absent or 0,
the status-by-containers grouping (any bucket key list, covering both
the four- and five-bucket variants) and the per-warehouse container
volume add exactly 1 container, while the per-month per-terminal cargo
volume adds exactly 0; the missing count is not treated uniformly as
zero. -/
theorem fclFallback_one_vs_zero (s : Shipment)
    (hft : s.shipmentType = some "FCL" ∨ s.shipmentType = some "FCL/LCL")
    (hf0 : s.fcl = none ∨ s.fcl = some 0) :
    containerCount s = 1
    ∧ (∀ (keys : List String) (l : List Shipment) (st : String),
        s.status = some st → st ∈ keys →
        statusByContainersCount keys (l ++ [s]) st
          = statusByContainersCount keys l st + 1)
    ∧ (∀ (keys : List String) (l : List Shipment),
        s.status = some "CARGO READY" → "CARGO READY" ∉ keys →
        statusByContainersCount keys (l ++ [s]) "AT THE PORT"
          = statusByContainersCount keys l "AT THE PORT" + 1)
    ∧ (∀ l : List Shipment, normalizeTerminalName s.bondedWarehouse ≠ "N/A" →
        containerVolumeByWarehouse (l ++ [s])
            (normalizeTerminalName s.bondedWarehouse)
          = containerVolumeByWarehouse l
              (normalizeTerminalName s.bondedWarehouse) + 1)
    ∧ (∀ (l : List Shipment) (m t : String),
        cargoVolume (l ++ [s]) m t = cargoVolume l m t) := by
  have hcc : containerCount s = 1 := by
    unfold containerCount
    rw [if_pos hft]
    rcases hf0 with h | h <;> simp [h]
  refine ⟨hcc, ?_, ?_, ?_, ?_⟩
  · intro keys l st hst hkeys
    rw [statusByContainersCount, statusByContainersCount, statusCount_append]
    have : statusContrib keys containerCount s st = 1 := by
      simp only [statusContrib, hst]
      rw [if_pos hkeys]
      simp [hcc]
    rw [this]
  · intro keys l hst hkeys
    rw [statusByContainersCount, statusByContainersCount, statusCount_append]
    have : statusContrib keys containerCount s "AT THE PORT" = 1 := by
      simp only [statusContrib, hst]
      rw [if_neg hkeys]
      simp [hcc]
    rw [this]
  · intro l hw
    rw [warehouseVolume_eq_sum, warehouseVolume_eq_sum]
    have : warehouseContrib s (normalizeTerminalName s.bondedWarehouse) = 1 := by
      simp only [warehouseContrib]
      rw [if_neg hw]
      simp [hcc]
    simp [this]
  · intro l m t
    rw [cargoVolume_eq_sum, cargoVolume_eq_sum]
    simp [cargoVolContrib_of_fcl_falsy s m t hf0]

/-- Witness for C10: a concrete FCL record with an absent fcl field,
appended to the empty sequence, in the five-bucket status grouping and
the volume aggregates. -/
theorem fclFallback_one_vs_zero_witness :
    (fclSample.shipmentType = some "FCL" ∧ fclSample.fcl = none)
    ∧ containerCount fclSample = 1
    ∧ statusByContainersCount opStatusKeys5 ([] ++ [fclSample]) "IN TRANSIT"
        = statusByContainersCount opStatusKeys5 [] "IN TRANSIT" + 1
    ∧ containerVolumeByWarehouse ([] ++ [fclSample]) "TECON"
        = containerVolumeByWarehouse [] "TECON" + 1
    ∧ cargoVolume ([] ++ [fclSample]) "Julho" "TECON"
        = cargoVolume [] "Julho" "TECON" := by
  have h := fclFallback_one_vs_zero fclSample (Or.inl rfl) (Or.inl rfl)
  refine ⟨⟨rfl, rfl⟩, h.1,
    h.2.1 opStatusKeys5 [] "IN TRANSIT" rfl (by decide), ?_,
    h.2.2.2.2 [] "Julho" "TECON"⟩
  have hw := h.2.2.2.1 []
    (by decide : normalizeTerminalName fclSample.bondedWarehouse ≠ "N/A")
  have he : normalizeTerminalName fclSample.bondedWarehouse = "TECON" := by
    decide
  rw [he] at hw
  exact hw

/- ------------------------------------------------------------------
   C7: the carrier-document reference is the only import gate
   ------------------------------------------------------------------ -/

/-- C7: the upload mapper drops a row exactly when its mapped
carrier-document reference is falsy after header mapping (the output
length is the count of rows with a truthy mapped reference, every kept
row appearing as its mapped record); a row whose only populated cell
is the reference yields one record with only that field set, and a row
with an empty reference is dropped despite other populated fields. -/
theorem uploadRows_gate :
    (∀ (headers : List String) (rows : List (List CellV)),
      (handleUploadRows headers rows).length
        = rows.countP (fun r => truthyCell (mapRow headers r).blAwb)
      ∧ handleUploadRows headers rows
        = (rows.map (mapRow headers)).filter (fun r => truthyCell r.blAwb))
    ∧ handleUploadRows ["BL/AWB", "STATUS"]
        [[CellV.cstr "MSCU123", CellV.cnone]]
        = [{ blAwb := CellV.cstr "MSCU123" }]
    ∧ handleUploadRows ["BL/AWB", "INCOTERM"]
        [[CellV.cstr "", CellV.cstr "CIF"]] = [] := by
  refine ⟨?_, by decide, by decide⟩
  intro headers rows
  constructor
  · unfold handleUploadRows
    rw [← List.countP_eq_length_filter, List.countP_map]
    rfl
  · rfl

/- ------------------------------------------------------------------
   C8: idempotence of terminal-name normalization
   ------------------------------------------------------------------ -/

theorem normalizeTerminalName_cases (n : String) :
    normalizeTerminalName (some n) = n
    ∨ normalizeTerminalName (some n)
        ∈ ["N/A", "TECON", "TECA", "CLIA Empório", "Intermaritima", "TPC"] := by
  by_cases h0 : n = ""
  · simp only [normalizeTerminalName, if_pos h0]
    right
    decide
  · simp only [normalizeTerminalName, if_neg h0]
    split
    · right; decide
    · split
      · right; decide
      · split
        · right; decide
        · split
          · right; decide
          · split
            · right; decide
            · left; rfl

/-- C8: normalizeTerminalName is idempotent: normalizing an
already-normalized name returns the same name, for every input. -/
theorem normalizeTerminalName_idempotent (x : Option String) :
    normalizeTerminalName (some (normalizeTerminalName x))
      = normalizeTerminalName x := by
  cases x with
  | none => decide
  | some n =>
    rcases normalizeTerminalName_cases n with h | h
    · rw [h]
      exact h
    · simp only [List.mem_cons, List.not_mem_nil, or_false] at h
      rcases h with h | h | h | h | h | h <;> rw [h] <;> decide

theorem handleZoomIn_bounds (n : Nat) (r : ViewRange) (_hn : 1 ≤ n)
    (h1 : r.start ≤ r.stop) (h2 : r.stop ≤ n - 1) :
    (handleZoomIn n r).start ≤ (handleZoomIn n r).stop
    ∧ (handleZoomIn n r).stop ≤ n - 1 := by
  simp only [handleZoomIn]
  split
  · exact ⟨h1, h2⟩
  · dsimp only
    omega

theorem handleZoomOut_bounds (n : Nat) (r : ViewRange) (hn : 1 ≤ n)
    (h1 : r.start ≤ r.stop) (h2 : r.stop ≤ n - 1) :
    (handleZoomOut n r).start ≤ (handleZoomOut n r).stop
    ∧ (handleZoomOut n r).stop ≤ n - 1 := by
  simp only [handleZoomOut]
  split
  · exact ⟨h1, h2⟩
  · split <;> dsimp only <;> omega

theorem applyZoomOps_inv (n : Nat) (hn : 1 ≤ n) (ops : List ZoomOp) :
    (applyZoomOps n ops).start ≤ (applyZoomOps n ops).stop
    ∧ (applyZoomOps n ops).stop ≤ n - 1 := by
  unfold applyZoomOps
  have hinit : (initViewRange n).start ≤ (initViewRange n).stop
      ∧ (initViewRange n).stop ≤ n - 1 := by
    unfold initViewRange
    rw [if_pos (by omega : 0 < n)]
    exact ⟨Nat.zero_le _, Nat.le_refl _⟩
  suffices h : ∀ (ops : List ZoomOp) (r : ViewRange),
      r.start ≤ r.stop → r.stop ≤ n - 1 →
      (ops.foldl (fun r op =>
          match op with
          | .zin => handleZoomIn n r
          | .zout => handleZoomOut n r) r).start
        ≤ (ops.foldl (fun r op =>
            match op with
            | .zin => handleZoomIn n r
            | .zout => handleZoomOut n r) r).stop
      ∧ (ops.foldl (fun r op =>
          match op with
          | .zin => handleZoomIn n r
          | .zout => handleZoomOut n r) r).stop ≤ n - 1 by
    exact h ops _ hinit.1 hinit.2
  intro ops
  induction ops with
  | nil => intro r h1 h2; exact ⟨h1, h2⟩
  | cons op ops ih =>
    intro r h1 h2
    simp only [List.foldl_cons]
    cases op
    · exact ih _ (handleZoomIn_bounds n r hn h1 h2).1
        (handleZoomIn_bounds n r hn h1 h2).2
    · exact ih _ (handleZoomOut_bounds n r hn h1 h2).1
        (handleZoomOut_bounds n r hn h1 h2).2

/- ------------------------------------------------------------------
   C9: zoom window bounds, contraction, expansion, recentering
   ------------------------------------------------------------------ -/

/-- C9 counterexample: for the empty data series the initial view
window is the 0-0 window, whose end index 0 already exceeds
length - 1 = -1, so the stated bound fails; and zooming in on a
12-point series moves the window midpoint from 5 to 4, so the new
window is not centered exactly on the midpoint of the old one. -/
theorem zoom_window_claim_fails :
    (applyZoomOps 0 [] = ⟨0, 0⟩
      ∧ ¬(((applyZoomOps 0 []).stop : Int) ≤ (0 : Int) - 1))
    ∧ (handleZoomIn 12 ⟨0, 11⟩ = ⟨1, 8⟩
      ∧ viewMid ⟨0, 11⟩ = 5 ∧ viewMid ⟨1, 8⟩ = 4) :=
  ⟨⟨by decide, by decide⟩, by decide, by decide, by decide⟩

/-- C9 (amended): over a nonempty series the view window stays within
bounds (0 ≤ start ≤ end ≤ length - 1) under every zoom sequence;
zoom-in leaves a window below the 2-index span unchanged and otherwise
contracts the span while keeping at least a 2-point window; zoom-out
leaves a full-series window unchanged and otherwise expands the span,
never beyond the series; and both operations recenter on the midpoint
of the current window up to one index of rounding whenever the bounds
do not clamp the new window. -/
theorem zoom_window_spec :
    (∀ (n : Nat) (ops : List ZoomOp), 1 ≤ n →
      (applyZoomOps n ops).start ≤ (applyZoomOps n ops).stop
      ∧ (applyZoomOps n ops).stop ≤ n - 1)
    ∧ (∀ (n : Nat) (r : ViewRange), r.start ≤ r.stop → r.stop ≤ n - 1 →
        (r.stop - r.start < 2 → handleZoomIn n r = r)
        ∧ (2 ≤ r.stop - r.start →
            1 ≤ (handleZoomIn n r).stop - (handleZoomIn n r).start
            ∧ (handleZoomIn n r).stop - (handleZoomIn n r).start
                ≤ r.stop - r.start))
    ∧ (∀ (n : Nat) (r : ViewRange), r.start ≤ r.stop → r.stop ≤ n - 1 →
        (n - 1 ≤ r.stop - r.start → handleZoomOut n r = r)
        ∧ (r.stop - r.start < n - 1 →
            r.stop - r.start ≤ (handleZoomOut n r).stop - (handleZoomOut n r).start
            ∧ (handleZoomOut n r).stop - (handleZoomOut n r).start + 1 ≤ n))
    ∧ (∀ (n : Nat) (r : ViewRange), r.start ≤ r.stop → r.stop ≤ n - 1 →
        2 ≤ r.stop - r.start →
        0 < (handleZoomIn n r).start → (handleZoomIn n r).stop < n - 1 →
        viewMid (handleZoomIn n r) = viewMid r
          ∨ viewMid (handleZoomIn n r) + 1 = viewMid r)
    ∧ (∀ (n : Nat) (r : ViewRange), r.start ≤ r.stop → r.stop ≤ n - 1 →
        r.stop - r.start < n - 1 →
        0 < (handleZoomOut n r).start → (handleZoomOut n r).stop < n - 1 →
        viewMid (handleZoomOut n r) = viewMid r
          ∨ viewMid (handleZoomOut n r) + 1 = viewMid r) := by
  refine ⟨fun n ops hn => applyZoomOps_inv n hn ops, ?_, ?_, ?_, ?_⟩
  · intro n r h1 h2
    constructor
    · intro hcr
      simp only [handleZoomIn]
      rw [if_pos hcr]
    · intro hcr
      simp only [handleZoomIn]
      rw [if_neg (by omega : ¬(r.stop - r.start < 2))]
      dsimp only
      omega
  · intro n r h1 h2
    constructor
    · intro hcr
      simp only [handleZoomOut]
      rw [if_pos hcr]
    · intro hcr
      simp only [handleZoomOut]
      rw [if_neg (by omega : ¬(n - 1 ≤ r.stop - r.start))]
      split <;> dsimp only <;> omega
  · intro n r h1 h2 hcr hs he
    simp only [handleZoomIn] at hs he ⊢
    rw [if_neg (by omega : ¬(r.stop - r.start < 2))] at hs he ⊢
    simp only [viewMid]
    dsimp only at hs he ⊢
    omega
  · intro n r h1 h2 hcr hs he
    simp only [handleZoomOut] at hs he ⊢
    rw [if_neg (by omega : ¬(n - 1 ≤ r.stop - r.start))] at hs he ⊢
    simp only [viewMid]
    split at hs <;> split at he <;> split <;> dsimp only at hs he ⊢ <;> omega

/-- Witness for the amended C9: the bound, contraction and expansion
parts applied to a 12-point series. -/
theorem zoom_window_spec_witness :
    ((1 : Nat) ≤ 12
      ∧ (applyZoomOps 12 [ZoomOp.zin, ZoomOp.zout]).start
          ≤ (applyZoomOps 12 [ZoomOp.zin, ZoomOp.zout]).stop
      ∧ (applyZoomOps 12 [ZoomOp.zin, ZoomOp.zout]).stop ≤ 12 - 1)
    ∧ ((2 : Nat) ≤ (⟨0, 11⟩ : ViewRange).stop - (⟨0, 11⟩ : ViewRange).start
      ∧ 1 ≤ (handleZoomIn 12 ⟨0, 11⟩).stop - (handleZoomIn 12 ⟨0, 11⟩).start
      ∧ (handleZoomIn 12 ⟨0, 11⟩).stop - (handleZoomIn 12 ⟨0, 11⟩).start
          ≤ (⟨0, 11⟩ : ViewRange).stop - (⟨0, 11⟩ : ViewRange).start) :=
  ⟨⟨by decide,
    (zoom_window_spec.1 12 [ZoomOp.zin, ZoomOp.zout] (by decide)).1,
    (zoom_window_spec.1 12 [ZoomOp.zin, ZoomOp.zout] (by decide)).2⟩,
   ⟨by decide,
    ((zoom_window_spec.2.1 12 ⟨0, 11⟩ (by decide) (by decide)).2 (by decide)).1,
    ((zoom_window_spec.2.1 12 ⟨0, 11⟩ (by decide) (by decide)).2 (by decide)).2⟩⟩

end KPI
